import Mathlib

/-!
Verification of the youmioseedviewer leaderboard pipeline.

The development shallowly embeds the two edge functions (the
leaderboard-refresh job and the opensea-listings proxy) and the browser
API utility module.  External HTTP services are modelled as oracles:
functions from a request (page number, token id, collection slug) to the
response the service would give.  JavaScript records become association
lists with overwrite-on-assign, JavaScript Sets become duplicate-free
lists preserving insertion order, and thrown exceptions become either
`Except.error` values or explicit `thrown` response constructors that the
embedded control flow propagates exactly as the source does.
-/

/-- The two tracked collections (`COLLECTION_SLUGS` keys). -/
inductive NFTType where
  | Mythic
  | Ancient
deriving DecidableEq, Repr

/-- Collection slugs, from the `COLLECTION_SLUGS` constant. -/
def COLLECTION_SLUGS : NFTType → String
  | .Mythic => "mythicseed"
  | .Ancient => "ancientseed"

/-- String form of a collection type, as interpolated into URLs and cache keys. -/
def nftTypeName : NFTType → String
  | .Mythic => "Mythic"
  | .Ancient => "Ancient"

/-- Response of one staking-points request (`GET /seeds/points`).  The three
`Option Int` fields are the `points`, `totalPoints` and `stakingPoints`
fields of the parsed JSON body (`none` = absent or null); `httpError` is a
non-ok HTTP status; `thrown` is a rejected fetch or a JSON parse error. -/
inductive PointsResp where
  | ok (points totalPoints stakingPoints : Option Int)
  | httpError (status : Nat)
  | thrown (msg : String)
deriving DecidableEq, Repr

/-- JavaScript record assignment `m[k] = v`: overwrite the binding when the
key is present, append it otherwise. -/
def recInsert : List (String × Int) → String → Int → List (String × Int)
  | [], k, v => [(k, v)]
  | (a, b) :: m, k, v => if a = k then (k, v) :: m else (a, b) :: recInsert m k v

/-- Structural worker for `chunkList`: each iteration takes one chunk of
`n + 1` elements off the front.  `fuel` only bounds the recursion; the
caller passes the length of the list, which the loop cannot exhaust because
every iteration consumes at least one element. -/
def chunkChop (n : Nat) : Nat → List α → List (List α)
  | _, [] => []
  | 0, l => [l]
  | fuel + 1, x :: xs => (x :: xs.take n) :: chunkChop n fuel (xs.drop n)

/-- Chunking loop of `fetchPointsBatch`: successive `slice(i, i + n + 1)`
pieces of the input (chunk size `n + 1`). -/
def chunkList (n : Nat) (l : List α) : List (List α) :=
  chunkChop n l.length l

/-- The `data.points ?? data.totalPoints ?? data.stakingPoints ?? 0`
null-coalescing chain. -/
def coalesce3 (p t s : Option Int) : Int :=
  match p with
  | some v => v
  | none =>
    match t with
    | some v => v
    | none =>
      match s with
      | some v => v
      | none => 0

/-- Value recorded for one token by the inner closure of `fetchPointsBatch`:
the coalesced point fields on an ok response, and 0 on a non-ok response or
on any thrown error. -/
def pointsFor : PointsResp → Int
  | .ok p t s => coalesce3 p t s
  | .httpError _ => 0
  | .thrown _ => 0

/-- The `fetchPointsBatch` function of the refresh job: chunk the token ids
into groups of 10, and record a point value for every token of every chunk
into one record.  The per-token fetches of a chunk run concurrently in the
source, but each writes its own key with a value depending only on the
oracle, so the record they build is the sequential fold. -/
def fetchPointsBatch (oracle : String → NFTType → PointsResp)
    (tokenIds : List String) (nftType : NFTType) : List (String × Int) :=
  (chunkList 9 tokenIds).foldl
    (fun m chunk =>
      chunk.foldl (fun m tid => recInsert m tid (pointsFor (oracle tid nftType))) m)
    []

theorem recInsert_lookup (m : List (String × Int)) (k : String) (v : Int)
    (q : String) :
    (recInsert m k v).lookup q = if q = k then some v else m.lookup q := by
  induction m with
  | nil =>
    by_cases h : q = k
    · simp [recInsert, List.lookup, h]
    · have hb : (q == k) = false := beq_eq_false_iff_ne.mpr h
      simp [recInsert, List.lookup, hb, h]
  | cons hd tl ih =>
    obtain ⟨a, b⟩ := hd
    by_cases hak : a = k
    · subst hak
      by_cases hqa : q = a
      · simp [recInsert, List.lookup, hqa]
      · have hb : (q == a) = false := beq_eq_false_iff_ne.mpr hqa
        simp [recInsert, List.lookup, hb, hqa]
    · by_cases hqa : q = a
      · have hqk : ¬q = k := fun h => hak (hqa.symm.trans h)
        have hb : (q == a) = true := beq_iff_eq.mpr hqa
        simp [recInsert, hak, List.lookup, hb, hqk]
      · have hba : (q == a) = false := beq_eq_false_iff_ne.mpr hqa
        by_cases hqk : q = k
        · subst hqk
          simp [recInsert, hak, List.lookup, hba, ih]
        · simp [recInsert, hak, List.lookup, hba, hqk, ih]

theorem recInsert_keys_mem (m : List (String × Int)) (k : String) (v : Int)
    (q : String) :
    q ∈ (recInsert m k v).map Prod.fst ↔ q ∈ m.map Prod.fst ∨ q = k := by
  induction m with
  | nil => simp [recInsert]
  | cons hd tl ih =>
    obtain ⟨a, b⟩ := hd
    by_cases hak : a = k
    · subst hak
      simp [recInsert]
      tauto
    · simp [recInsert, hak, ih]
      tauto

theorem recInsert_keys_nodup (m : List (String × Int)) (k : String) (v : Int)
    (h : (m.map Prod.fst).Nodup) : ((recInsert m k v).map Prod.fst).Nodup := by
  induction m with
  | nil => simp [recInsert]
  | cons hd tl ih =>
    obtain ⟨a, b⟩ := hd
    rw [List.map_cons, List.nodup_cons] at h
    by_cases hak : a = k
    · subst hak
      rw [show recInsert ((a, b) :: tl) a v = (a, v) :: tl from by simp [recInsert]]
      rw [List.map_cons, List.nodup_cons]
      exact h
    · have h1 : a ∉ (recInsert tl k v).map Prod.fst := by
        rw [recInsert_keys_mem]
        rintro (hmem | heq)
        · exact h.1 hmem
        · exact hak heq
      rw [show recInsert ((a, b) :: tl) k v = (a, b) :: recInsert tl k v from by
        simp [recInsert, hak]]
      rw [List.map_cons, List.nodup_cons]
      exact ⟨h1, ih h.2⟩

/-- Sequential fold of per-token record writes over a flat id list; the
chunked fold of `fetchPointsBatch` reduces to it. -/
def insertAllPoints (oracle : String → NFTType → PointsResp) (ty : NFTType)
    (m : List (String × Int)) (ids : List String) : List (String × Int) :=
  ids.foldl (fun m tid => recInsert m tid (pointsFor (oracle tid ty))) m

/-- A staking response whose numeric fields, where present, are non-negative
(the documented shape of the staking API: point totals). -/
def respNonneg : PointsResp → Prop
  | .ok p t s => (∀ v ∈ p, 0 ≤ v) ∧ (∀ v ∈ t, 0 ≤ v) ∧ (∀ v ∈ s, 0 ≤ v)
  | .httpError _ => True
  | .thrown _ => True

/-- A per-token lookup that did not complete normally: non-ok HTTP status or
a thrown error. -/
def lookupFailed : PointsResp → Prop
  | .ok _ _ _ => False
  | .httpError _ => True
  | .thrown _ => True

theorem chunkChop_flatten (n : Nat) :
    ∀ (fuel : Nat) (l : List α), (chunkChop n fuel l).flatten = l := by
  intro fuel
  induction fuel with
  | zero =>
    intro l
    cases l with
    | nil => simp [chunkChop]
    | cons x xs => simp [chunkChop]
  | succ fuel ih =>
    intro l
    cases l with
    | nil => simp [chunkChop]
    | cons x xs => simp [chunkChop, ih (xs.drop n)]

theorem chunkList_flatten (n : Nat) (l : List α) : (chunkList n l).flatten = l :=
  chunkChop_flatten n l.length l

theorem insertAllPoints_lookup (oracle : String → NFTType → PointsResp)
    (ty : NFTType) (ids : List String) (m : List (String × Int)) (q : String) :
    (insertAllPoints oracle ty m ids).lookup q =
      if q ∈ ids then some (pointsFor (oracle q ty)) else m.lookup q := by
  induction ids generalizing m with
  | nil => simp [insertAllPoints]
  | cons tid rest ih =>
    have step : insertAllPoints oracle ty m (tid :: rest) =
        insertAllPoints oracle ty
          (recInsert m tid (pointsFor (oracle tid ty))) rest := rfl
    rw [step, ih, recInsert_lookup]
    by_cases h1 : q ∈ rest
    · simp [h1]
    · by_cases h2 : q = tid
      · subst h2
        simp [h1]
      · simp [h1, h2]

theorem insertAllPoints_keys_nodup (oracle : String → NFTType → PointsResp)
    (ty : NFTType) (ids : List String) (m : List (String × Int))
    (h : (m.map Prod.fst).Nodup) :
    ((insertAllPoints oracle ty m ids).map Prod.fst).Nodup := by
  induction ids generalizing m with
  | nil => exact h
  | cons tid rest ih =>
    exact ih _ (recInsert_keys_nodup _ _ _ h)

theorem recInsert_mem (m : List (String × Int)) (k : String) (v : Int)
    (p : String × Int) (hp : p ∈ recInsert m k v) : p ∈ m ∨ p = (k, v) := by
  induction m with
  | nil => simpa [recInsert] using hp
  | cons hd tl ih =>
    obtain ⟨a, b⟩ := hd
    by_cases hak : a = k
    · subst hak
      simp [recInsert] at hp
      rcases hp with hp | hp
      · exact Or.inr (by simp [hp])
      · exact Or.inl (by simp [hp])
    · simp [recInsert, hak] at hp
      rcases hp with hp | hp
      · exact Or.inl (by simp [hp])
      · rcases ih hp with h | h
        · exact Or.inl (by simp [h])
        · exact Or.inr h

theorem insertAllPoints_values_nonneg (oracle : String → NFTType → PointsResp)
    (ty : NFTType) (ids : List String) (m : List (String × Int))
    (hm : ∀ p ∈ m, 0 ≤ p.2)
    (hf : ∀ tid, 0 ≤ pointsFor (oracle tid ty)) :
    ∀ p ∈ insertAllPoints oracle ty m ids, 0 ≤ p.2 := by
  induction ids generalizing m with
  | nil => exact hm
  | cons tid rest ih =>
    refine ih _ (fun p hp => ?_)
    rcases recInsert_mem m tid (pointsFor (oracle tid ty)) p hp with h | h
    · exact hm p h
    · rw [h]
      exact hf tid

theorem coalesce3_nonneg (p t s : Option Int)
    (hp : ∀ v ∈ p, 0 ≤ v) (ht : ∀ v ∈ t, 0 ≤ v) (hs : ∀ v ∈ s, 0 ≤ v) :
    0 ≤ coalesce3 p t s := by
  cases p with
  | some v => exact hp v rfl
  | none =>
    cases t with
    | some v => exact ht v rfl
    | none =>
      cases s with
      | some v => exact hs v rfl
      | none => simp [coalesce3]

theorem pointsFor_nonneg (r : PointsResp) (h : respNonneg r) : 0 ≤ pointsFor r := by
  cases r with
  | ok p t s => exact coalesce3_nonneg p t s h.1 h.2.1 h.2.2
  | httpError st => simp [pointsFor]
  | thrown msg => simp [pointsFor]

theorem pointsFor_failed (r : PointsResp) (h : lookupFailed r) : pointsFor r = 0 := by
  cases r with
  | ok p t s => exact absurd h (by simp [lookupFailed])
  | httpError st => rfl
  | thrown msg => rfl

theorem fetchPointsBatch_eq_insertAll (oracle : String → NFTType → PointsResp)
    (ids : List String) (ty : NFTType) :
    fetchPointsBatch oracle ids ty = insertAllPoints oracle ty [] ids := by
  unfold fetchPointsBatch insertAllPoints
  rw [← chunkList_flatten 9 ids, List.foldl_flatten, chunkList_flatten]

/-- C1: for every list of token ids and every nftType, the record returned by
`fetchPointsBatch` binds every input token id exactly once (keys are
duplicate-free, each input id is bound, ids that failed are bound to 0, and
no other key appears), and — for staking responses whose numeric fields are
point totals, hence non-negative — every recorded value is non-negative. -/
theorem fetchPointsBatch_complete (oracle : String → NFTType → PointsResp)
    (ty : NFTType) (ids : List String)
    (hor : ∀ tid, respNonneg (oracle tid ty)) :
    ((fetchPointsBatch oracle ids ty).map Prod.fst).Nodup ∧
    (∀ tid ∈ ids, (fetchPointsBatch oracle ids ty).lookup tid =
        some (pointsFor (oracle tid ty))) ∧
    (∀ p ∈ fetchPointsBatch oracle ids ty, 0 ≤ p.2) ∧
    (∀ tid ∈ ids, lookupFailed (oracle tid ty) →
        (fetchPointsBatch oracle ids ty).lookup tid = some 0) ∧
    (∀ q, q ∉ ids → (fetchPointsBatch oracle ids ty).lookup q = none) := by
  rw [fetchPointsBatch_eq_insertAll]
  refine ⟨insertAllPoints_keys_nodup oracle ty ids [] (by simp),
    fun tid htid => ?_,
    insertAllPoints_values_nonneg oracle ty ids [] (by simp)
      (fun tid => pointsFor_nonneg _ (hor tid)),
    fun tid htid hfail => ?_, fun q hq => ?_⟩
  · rw [insertAllPoints_lookup]
    simp [htid]
  · rw [insertAllPoints_lookup]
    simp [htid, pointsFor_failed _ hfail]
  · rw [insertAllPoints_lookup]
    simp [hq]

/-- Concrete staking oracle for the C1 witness: token "8" gets a 404, every
other token an ok response with 5 points. -/
def c1oracle : String → NFTType → PointsResp := fun tid _ =>
  if tid = "8" then .httpError 404 else .ok (some 5) none none

theorem fetchPointsBatch_complete_witness :
    ((fetchPointsBatch c1oracle ["7", "8"] .Mythic).map Prod.fst).Nodup ∧
    (fetchPointsBatch c1oracle ["7", "8"] .Mythic).lookup "7" = some 5 ∧
    (fetchPointsBatch c1oracle ["7", "8"] .Mythic).lookup "8" = some 0 := by
  have h := fetchPointsBatch_complete c1oracle .Mythic ["7", "8"]
    (fun tid => by
      by_cases htid : tid = "8" <;>
        simp [c1oracle, respNonneg, htid])
  refine ⟨h.1, ?_, ?_⟩
  · have h7 := h.2.1 "7" (by simp)
    rw [h7]
    simp [c1oracle, pointsFor, coalesce3]
  · exact h.2.2.2.1 "8" (by simp) (by simp [c1oracle, lookupFailed])

/-- One NFT of the collection endpoint, after the projection applied in
`fetchAllNFTs` (`identifier`, `image_url`, `opensea_url`). -/
structure NFTItem where
  identifier : String
  image_url : Option String
  opensea_url : Option String
deriving DecidableEq, Repr

/-- One active listing of the listings endpoint; the field is the value of
the optional chain `protocol_data?.parameters?.offer?.[0]?.identifierOrCriteria`
(`none` when any link of the chain is missing). -/
structure OSListing where
  tokenId : Option String
deriving DecidableEq, Repr

/-- Response of one page request against a paginated marketplace endpoint:
an ok page carrying items and the `next` cursor field, a non-ok HTTP status,
or a thrown error (rejected fetch or JSON parse failure). -/
inductive PageResp (α : Type) where
  | ok (items : List α) (next : Option String)
  | httpError (status : Nat)
  | thrown (msg : String)
deriving DecidableEq, Repr

/-- The `data.next || null` normalisation: a falsy cursor (absent or the
empty string) becomes null. -/
def normCursor : Option String → Option String
  | none => none
  | some s => if s = "" then none else some s

/-- The shared do-while page loop of `fetchAllNFTs` and
`fetchListedTokenIds`.  `page` is the value of `pageCount` after the
increment at the top of the iteration; `step` folds a page of items into the
accumulator; the returned number is the final `pageCount`, i.e. how many
pages were requested.  `fuel` bounds the recursion; the callers pass fuel
equal to the page cap, which the loop can never exhaust because it stops at
`page ≥ maxPages`. -/
def fetchPagesAux (step : β → List α → β) (oracle : Nat → PageResp α)
    (maxPages : Nat) : Nat → Nat → β → Except String (β × Nat)
  | fuel, page, acc =>
    match oracle page with
    | .thrown msg => .error msg
    | .httpError _ => .ok (acc, page)
    | .ok items next =>
      let acc2 := step acc items
      if page ≥ maxPages then .ok (acc2, page)
      else
        match normCursor next with
        | none => .ok (acc2, page)
        | some _ =>
          match fuel with
          | 0 => .ok (acc2, page)
          | fuel' + 1 => fetchPagesAux step oracle maxPages fuel' (page + 1) acc2

/-- The `fetchAllNFTs` function: up to 50 pages of the collection endpoint,
concatenating the projected NFT items; a thrown fetch or parse error
propagates to the caller. -/
def fetchAllNFTs (oracle : Nat → PageResp NFTItem) :
    Except String (List NFTItem × Nat) :=
  fetchPagesAux (fun acc items => acc ++ items) oracle 50 50 1 []

/-- JavaScript `Set.add`: append the element unless already present
(insertion-order set on lists). -/
def setAdd (s : List String) (x : String) : List String :=
  if x ∈ s then s else s ++ [x]

/-- Inner loop of a `fetchListedTokenIds` page: extract the offered token id
of every listing and add each truthy id to the set. -/
def listedStep (s : List String) (listings : List OSListing) : List String :=
  listings.foldl
    (fun s l =>
      match l.tokenId with
      | some tid => if tid = "" then s else setAdd s tid
      | none => s)
    s

/-- The `fetchListedTokenIds` function: up to 20 pages of the listings
endpoint, building the set of listed token ids. -/
def fetchListedTokenIds (oracle : Nat → PageResp OSListing) :
    Except String (List String × Nat) :=
  fetchPagesAux listedStep oracle 20 20 1 []

theorem fetchPagesAux_pages_le (step : β → List α → β)
    (oracle : Nat → PageResp α) (maxPages : Nat) :
    ∀ (fuel page : Nat) (acc : β) (b : β) (p : Nat), page ≤ maxPages →
      fetchPagesAux step oracle maxPages fuel page acc = .ok (b, p) →
      p ≤ maxPages := by
  intro fuel
  induction fuel with
  | zero =>
    intro page acc b p hpage h
    rw [fetchPagesAux] at h
    cases horacle : oracle page with
    | thrown msg => rw [horacle] at h; exact absurd h (by simp)
    | httpError st =>
      rw [horacle] at h
      simp at h
      omega
    | ok items next =>
      rw [horacle] at h
      by_cases hcap : page ≥ maxPages
      · simp [hcap] at h
        omega
      · cases hnc : normCursor next with
        | none => simp [hcap, hnc] at h; omega
        | some c => simp [hcap, hnc] at h; omega
  | succ fuel ih =>
    intro page acc b p hpage h
    rw [fetchPagesAux] at h
    cases horacle : oracle page with
    | thrown msg => rw [horacle] at h; exact absurd h (by simp)
    | httpError st =>
      rw [horacle] at h
      simp at h
      omega
    | ok items next =>
      rw [horacle] at h
      by_cases hcap : page ≥ maxPages
      · simp [hcap] at h
        omega
      · cases hnc : normCursor next with
        | none => simp [hcap, hnc] at h; omega
        | some c =>
          simp [hcap, hnc] at h
          exact ih (page + 1) (step acc items) b p (by omega) h

theorem fetchPagesAux_stop_httpError (step : β → List α → β)
    (oracle : Nat → PageResp α) (maxPages fuel page : Nat) (acc : β)
    (st : Nat) (h : oracle page = .httpError st) :
    fetchPagesAux step oracle maxPages fuel page acc = .ok (acc, page) := by
  cases fuel <;> rw [fetchPagesAux] <;> simp [h]

theorem fetchPagesAux_stop_noCursor (step : β → List α → β)
    (oracle : Nat → PageResp α) (maxPages fuel page : Nat) (acc : β)
    (items : List α) (next : Option String)
    (h : oracle page = .ok items next) (hnc : normCursor next = none) :
    fetchPagesAux step oracle maxPages fuel page acc =
      .ok (step acc items, page) := by
  cases fuel <;> rw [fetchPagesAux] <;>
    by_cases hcap : page ≥ maxPages <;> simp [h, hcap, hnc]

theorem fetchPagesAux_unbounded (step : β → List α → β)
    (oracle : Nat → PageResp α) (maxPages : Nat)
    (h : ∀ p, ∃ items c, oracle p = .ok items (some c) ∧ c ≠ "") :
    ∀ (fuel page : Nat) (acc : β), page ≤ maxPages → maxPages - page ≤ fuel →
      ∃ b, fetchPagesAux step oracle maxPages fuel page acc =
        .ok (b, maxPages) := by
  intro fuel
  induction fuel with
  | zero =>
    intro page acc hpage hfuel
    obtain ⟨items, c, horacle, hc⟩ := h page
    have hpm : page = maxPages := by omega
    subst hpm
    refine ⟨step acc items, ?_⟩
    rw [fetchPagesAux]
    simp [horacle]
  | succ fuel ih =>
    intro page acc hpage hfuel
    obtain ⟨items, c, horacle, hc⟩ := h page
    by_cases hcap : page ≥ maxPages
    · have hpm : page = maxPages := by omega
      subst hpm
      refine ⟨step acc items, ?_⟩
      rw [fetchPagesAux]
      simp [horacle]
    · have hrec := ih (page + 1) (step acc items) (by omega) (by omega)
      obtain ⟨b, hb⟩ := hrec
      refine ⟨b, ?_⟩
      rw [fetchPagesAux]
      simp [horacle, hcap, normCursor, hc, hb]

/-- C4: the page loops of `fetchAllNFTs` and `fetchListedTokenIds` are total
functions of the response sequence (termination), never request more pages
than the caps of 50 and 20 — even on an unbounded cursor chain, where they
request exactly the cap —, stop at once on a non-ok HTTP response returning
the items accumulated so far, and stop exactly when the normalised cursor is
absent, returning the accumulated items including the final page. -/
theorem pagination_terminates (o1 : Nat → PageResp NFTItem)
    (o2 : Nat → PageResp OSListing) :
    (∀ b p, fetchAllNFTs o1 = .ok (b, p) → p ≤ 50) ∧
    (∀ b p, fetchListedTokenIds o2 = .ok (b, p) → p ≤ 20) ∧
    (∀ fuel page acc st, o1 page = .httpError st →
      fetchPagesAux (fun acc items => acc ++ items) o1 50 fuel page acc =
        .ok (acc, page)) ∧
    (∀ fuel page acc st, o2 page = .httpError st →
      fetchPagesAux listedStep o2 20 fuel page acc = .ok (acc, page)) ∧
    (∀ fuel page acc items next, o1 page = .ok items next →
      normCursor next = none →
      fetchPagesAux (fun acc items => acc ++ items) o1 50 fuel page acc =
        .ok (acc ++ items, page)) ∧
    (∀ fuel page acc listings next, o2 page = .ok listings next →
      normCursor next = none →
      fetchPagesAux listedStep o2 20 fuel page acc =
        .ok (listedStep acc listings, page)) ∧
    ((∀ p, ∃ items c, o1 p = .ok items (some c) ∧ c ≠ "") →
      ∃ b, fetchAllNFTs o1 = .ok (b, 50)) ∧
    ((∀ p, ∃ listings c, o2 p = .ok listings (some c) ∧ c ≠ "") →
      ∃ b, fetchListedTokenIds o2 = .ok (b, 20)) := by
  refine ⟨fun b p h => fetchPagesAux_pages_le _ o1 50 50 1 [] b p (by omega) h,
    fun b p h => fetchPagesAux_pages_le _ o2 20 20 1 [] b p (by omega) h,
    fun fuel page acc st h => fetchPagesAux_stop_httpError _ o1 50 fuel page acc st h,
    fun fuel page acc st h => fetchPagesAux_stop_httpError _ o2 20 fuel page acc st h,
    fun fuel page acc items next h hnc =>
      fetchPagesAux_stop_noCursor _ o1 50 fuel page acc items next h hnc,
    fun fuel page acc listings next h hnc =>
      fetchPagesAux_stop_noCursor _ o2 20 fuel page acc listings next h hnc,
    fun h => fetchPagesAux_unbounded _ o1 50 h 50 1 [] (by omega) (by omega),
    fun h => fetchPagesAux_unbounded _ o2 20 h 20 1 [] (by omega) (by omega)⟩

/-- Concrete marketplace oracle for the C4 witness: page 1 is ok with a
cursor, page 2 answers HTTP 500. -/
def c4oracle : Nat → PageResp NFTItem := fun p =>
  if p = 1 then .ok [⟨"1", none, none⟩] (some "cur") else .httpError 500

/-- Concrete listings oracle for the C4 witness: every page is ok with a
non-empty cursor (an unbounded cursor chain). -/
def c4oracle2 : Nat → PageResp OSListing := fun _ => .ok [] (some "cur")

theorem pagination_terminates_witness :
    fetchPagesAux (fun acc items => acc ++ items) c4oracle 50 50 2
        [(⟨"1", none, none⟩ : NFTItem)] =
      .ok ([⟨"1", none, none⟩], 2) ∧
    ∃ b, fetchListedTokenIds c4oracle2 = .ok (b, 20) := by
  have h := pagination_terminates c4oracle c4oracle2
  refine ⟨h.2.2.1 50 2 [⟨"1", none, none⟩] 500 (by simp [c4oracle]), ?_⟩
  exact h.2.2.2.2.2.2.2 (fun p => ⟨[], "cur", by simp [c4oracle2], by simp⟩)

/-- Cache key of the utility module's points cache: `` `${nftType}_${tokenId}` ``. -/
def cacheKeyOf (ty : NFTType) (tid : String) : String :=
  nftTypeName ty ++ "_" ++ tid

/-- Result of one `fetchStakingPoints` call: the returned value, the points
cache afterwards, and whether the staking API was contacted. -/
structure StakeFetch where
  value : Int
  cache : List (String × Int)
  apiCalled : Bool
deriving DecidableEq, Repr

/-- The `fetchStakingPoints` function of the utility module: return the
cached value when the key is cached; otherwise call the staking API once and
cache the outcome — `data.points || 0` on an ok response (for an integer
`points` field, `v || 0` is `v` when the field is present and 0 when it is
absent or null), and 0 on a non-ok response or any thrown error.  The
function never throws: every branch returns a value. -/
def fetchStakingPoints (oracle : String → NFTType → PointsResp)
    (tokenId : String) (nftType : NFTType)
    (pointsCache : List (String × Int)) : StakeFetch :=
  let cacheKey := cacheKeyOf nftType tokenId
  match pointsCache.lookup cacheKey with
  | some v => ⟨v, pointsCache, false⟩
  | none =>
    match oracle tokenId nftType with
    | .ok p _ _ => ⟨p.getD 0, recInsert pointsCache cacheKey (p.getD 0), true⟩
    | .httpError _ => ⟨0, recInsert pointsCache cacheKey 0, true⟩
    | .thrown _ => ⟨0, recInsert pointsCache cacheKey 0, true⟩

/-- Modelled from the spec: "returns the parsed point value on success
(looking for any of several possible response field names, first non-null
wins), returns 0 on HTTP failure (including 404 ...) or on any thrown
error". -/
def specPointsValue : PointsResp → Int
  | .ok p t s => coalesce3 p t s
  | .httpError _ => 0
  | .thrown _ => 0

/-- C9: calling `fetchStakingPoints` twice with the same arguments yields
the same value; the second call is answered from the points cache without
contacting the staking API, and leaves the cache unchanged. -/
theorem fetchStakingPoints_memoized (oracle : String → NFTType → PointsResp)
    (tid : String) (ty : NFTType) (cache : List (String × Int)) :
    (fetchStakingPoints oracle tid ty
        (fetchStakingPoints oracle tid ty cache).cache).value =
      (fetchStakingPoints oracle tid ty cache).value ∧
    (fetchStakingPoints oracle tid ty
        (fetchStakingPoints oracle tid ty cache).cache).apiCalled = false ∧
    (fetchStakingPoints oracle tid ty
        (fetchStakingPoints oracle tid ty cache).cache).cache =
      (fetchStakingPoints oracle tid ty cache).cache := by
  cases hl : cache.lookup (cacheKeyOf ty tid) with
  | some v =>
    simp [fetchStakingPoints, hl]
  | none =>
    cases horacle : oracle tid ty with
    | ok p t s =>
      have h2 : (recInsert cache (cacheKeyOf ty tid) (p.getD 0)).lookup
          (cacheKeyOf ty tid) = some (p.getD 0) := by
        rw [recInsert_lookup]
        simp
      simp [fetchStakingPoints, hl, horacle, h2]
    | httpError st =>
      have h2 : (recInsert cache (cacheKeyOf ty tid) 0).lookup
          (cacheKeyOf ty tid) = some 0 := by
        rw [recInsert_lookup]
        simp
      simp [fetchStakingPoints, hl, horacle, h2]
    | thrown msg =>
      have h2 : (recInsert cache (cacheKeyOf ty tid) 0).lookup
          (cacheKeyOf ty tid) = some 0 := by
        rw [recInsert_lookup]
        simp
      simp [fetchStakingPoints, hl, horacle, h2]

/-- Staking oracle refuting C5 for `fetchStakingPoints`: the ok response
carries no `points` field but `totalPoints = 7`. -/
def c5oracle : String → NFTType → PointsResp := fun _ _ =>
  .ok none (some 7) none

/-- C5 counterexample: on an ok response with `points` absent and
`totalPoints = 7`, the claim says the lookup returns the first non-null
field, 7; `fetchStakingPoints` reads only `data.points` and returns 0. -/
theorem fetchStakingPoints_spec_counterexample :
    (fetchStakingPoints c5oracle "1" .Mythic []).value = 0 ∧
    specPointsValue (c5oracle "1" .Mythic) = 7 ∧
    (fetchStakingPoints c5oracle "1" .Mythic []).value ≠
      specPointsValue (c5oracle "1" .Mythic) := by
  refine ⟨rfl, rfl, by decide⟩

/-- C5 amended: for a token id that is not yet cached, the staking-points
lookups never throw and return: for the per-token lookup of
`fetchPointsBatch`, exactly the value the spec describes (first non-null
among `points`, `totalPoints`, `stakingPoints`; 0 on non-ok HTTP including
404; 0 on thrown errors); for `fetchStakingPoints` of the utility module,
the `points` field alone on an ok response (0 when absent), and 0 on any
non-ok HTTP response or thrown error. -/
theorem stakingPoints_amended (oracle : String → NFTType → PointsResp)
    (tid : String) (ty : NFTType) (cache : List (String × Int))
    (hmiss : cache.lookup (cacheKeyOf ty tid) = none) :
    pointsFor (oracle tid ty) = specPointsValue (oracle tid ty) ∧
    (∀ p t s, oracle tid ty = .ok p t s →
      (fetchStakingPoints oracle tid ty cache).value = p.getD 0) ∧
    (∀ st, oracle tid ty = .httpError st →
      (fetchStakingPoints oracle tid ty cache).value = 0) ∧
    (∀ msg, oracle tid ty = .thrown msg →
      (fetchStakingPoints oracle tid ty cache).value = 0) := by
  refine ⟨?_, fun p t s h => ?_, fun st h => ?_, fun msg h => ?_⟩
  · cases horacle : oracle tid ty <;> rfl
  · simp [fetchStakingPoints, hmiss, h]
  · simp [fetchStakingPoints, hmiss, h]
  · simp [fetchStakingPoints, hmiss, h]

/-- Staking oracle for the C5 witness: HTTP 404 for every token. -/
def c5oracle404 : String → NFTType → PointsResp := fun _ _ => .httpError 404

theorem stakingPoints_amended_witness :
    (fetchStakingPoints c5oracle404 "9" .Ancient []).value = 0 := by
  have h := stakingPoints_amended c5oracle404 "9" .Ancient [] (by simp)
  exact h.2.2.1 404 rfl

/-- One cached leaderboard row (table `leaderboard_entries`). -/
structure Row where
  collection_slug : String
  nft_type : NFTType
  token_id : String
  points : Int
  image_url : Option String
  opensea_url : Option String
  is_listed : Bool
deriving DecidableEq, Repr

/-- The single status row (table `leaderboard_meta`, key `leaderboard_v1`). -/
structure MetaRow where
  status : String
  last_started_at : Option Nat
  last_completed_at : Option Nat
  last_error : Option String
deriving DecidableEq, Repr

/-- Upsert one row with conflict target `collection_slug,token_id`: replace
the matching row when one exists, append otherwise. -/
def upsertRow (entries : List Row) (r : Row) : List Row :=
  if entries.any (fun e =>
      e.collection_slug == r.collection_slug && e.token_id == r.token_id)
  then entries.map (fun e =>
    if e.collection_slug == r.collection_slug && e.token_id == r.token_id
    then r else e)
  else entries ++ [r]

/-- The `leaderboard_meta` upsert at job start: writes `status = running` and
`last_started_at` only. -/
def markRunning (m : MetaRow) (t : Nat) : MetaRow :=
  { m with status := "running", last_started_at := some t }

/-- The `leaderboard_meta` upsert on success: writes `status = idle`,
`last_completed_at`, and `last_error = null` only. -/
def markIdle (m : MetaRow) (t : Nat) : MetaRow :=
  { m with status := "idle", last_completed_at := some t, last_error := none }

/-- The `leaderboard_meta` upsert in the catch block: writes `status = error`
and `last_error` only. -/
def markError (m : MetaRow) (msg : String) : MetaRow :=
  { m with status := "error", last_error := some msg }

/-- External world of one collection's refresh: the NFT page oracle, the
listings page oracle, the staking oracle, and which upsert batches the
database rejects (a rejected batch is logged and skipped). -/
structure CollectionEnv where
  nftPages : Nat → PageResp NFTItem
  listingPages : Nat → PageResp OSListing
  points : String → NFTType → PointsResp
  upsertFails : Nat → Bool

/-- One leaderboard row assembled in the upsert loop of the refresh job. -/
def mkRow (slug : String) (ty : NFTType) (pointsById : List (String × Int))
    (listed : List String) (nft : NFTItem) : Row :=
  { collection_slug := slug
    nft_type := ty
    token_id := nft.identifier
    points := (pointsById.lookup nft.identifier).getD 0
    image_url := nft.image_url
    opensea_url := nft.opensea_url
    is_listed := listed.contains nft.identifier }

/-- Body of the per-collection loop of the refresh job: fetch the NFTs and
the listed ids (either may throw, which aborts the collection with no row
written), fetch the points batch (which never throws), then upsert the rows
in batches of 100, skipping batches the database rejects.  Returns the
entries table afterwards and the thrown message, if any. -/
def processCollection (env : CollectionEnv) (ty : NFTType) (slug : String)
    (entries : List Row) : List Row × Option String :=
  match fetchAllNFTs env.nftPages with
  | .error msg => (entries, some msg)
  | .ok (nfts, _) =>
    match fetchListedTokenIds env.listingPages with
    | .error msg => (entries, some msg)
    | .ok (listed, _) =>
      let tokenIds := (nfts.map (fun n => n.identifier)).filter (fun s => s != "")
      let pointsById := fetchPointsBatch env.points tokenIds ty
      let entries2 := ((chunkList 99 nfts).enum).foldl
        (fun es batch =>
          if env.upsertFails batch.1 then es
          else batch.2.foldl
            (fun es nft => upsertRow es (mkRow slug ty pointsById listed nft)) es)
        entries
      (entries2, none)

/-- External world of one job invocation: a collection environment per
collection, and the clock readings taken at the start and completion
upserts. -/
structure JobEnv where
  collEnv : NFTType → CollectionEnv
  startedAt : Nat
  completedAt : Nat

/-- The `for ... of Object.entries(COLLECTION_SLUGS)` loop: process the
collections sequentially, propagating the first thrown message and skipping
the remaining collections. -/
def processCollections (jenv : JobEnv) :
    List NFTType → List Row → List Row × Option String
  | [], es => (es, none)
  | ty :: rest, es =>
    match processCollection (jenv.collEnv ty) ty (COLLECTION_SLUGS ty) es with
    | (es2, none) => processCollections jenv rest es2
    | (es2, some msg) => (es2, some msg)

/-- Database state visible to the refresh job. -/
structure DBState where
  entries : List Row
  meta : MetaRow
deriving DecidableEq, Repr

/-- An HTTP response of an edge function handler. -/
structure HttpResponse where
  status : Nat
  body : String
deriving DecidableEq, Repr

/-- Body of the success response of the refresh handler. -/
def successBody : String := "\x7b\"success\":true\x7d"

/-- Body of the 500 response of the refresh handler. -/
def failureBody : String := "\x7b\"error\":\"Refresh failed\"\x7d"

/-- The `Deno.serve` handler of the leaderboard-refresh function (non-OPTIONS
path): mark the status row running, process both collections inside the try,
then mark idle and answer 200, or — when a message was thrown — mark error
and answer 500. -/
def leaderboardRefresh (jenv : JobEnv) (db : DBState) : DBState × HttpResponse :=
  let meta1 := markRunning db.meta jenv.startedAt
  match processCollections jenv [.Mythic, .Ancient] db.entries with
  | (es, none) => (⟨es, markIdle meta1 jenv.completedAt⟩, ⟨200, successBody⟩)
  | (es, some msg) => (⟨es, markError meta1 msg⟩, ⟨500, failureBody⟩)

/-- C3: the refresh handler always answers (its status is 200 or 500); when
every collection completes, the status row is idle with `last_completed_at`
set and the answer is the 200 success response; when a message is thrown
anywhere in the collection-processing sequence, the status row is error with
the message in `last_error` and the answer is the 500 failure response. -/
theorem refresh_job_status (jenv : JobEnv) (db : DBState) :
    ((leaderboardRefresh jenv db).2.status = 200 ∨
      (leaderboardRefresh jenv db).2.status = 500) ∧
    (∀ es, processCollections jenv [.Mythic, .Ancient] db.entries =
        (es, none) →
      (leaderboardRefresh jenv db).1.meta.status = "idle" ∧
      (leaderboardRefresh jenv db).1.meta.last_completed_at =
        some jenv.completedAt ∧
      (leaderboardRefresh jenv db).2 = ⟨200, successBody⟩) ∧
    (∀ es msg, processCollections jenv [.Mythic, .Ancient] db.entries =
        (es, some msg) →
      (leaderboardRefresh jenv db).1.meta.status = "error" ∧
      (leaderboardRefresh jenv db).1.meta.last_error = some msg ∧
      (leaderboardRefresh jenv db).2 = ⟨500, failureBody⟩) := by
  cases hp : processCollections jenv [.Mythic, .Ancient] db.entries with
  | mk es2 out =>
    cases out with
    | none =>
      refine ⟨Or.inl ?_, fun es hes => ?_, fun es msg hes => ?_⟩
      · simp [leaderboardRefresh, hp]
      · simp [leaderboardRefresh, hp, markIdle]
      · exact absurd hes (by simp)
    | some msg2 =>
      refine ⟨Or.inr ?_, fun es hes => ?_, fun es msg hes => ?_⟩
      · simp [leaderboardRefresh, hp]
      · exact absurd hes (by simp)
      · have hmsg : msg2 = msg := by
          have h2 := congrArg Prod.snd hes
          simpa using h2
        subst hmsg
        simp [leaderboardRefresh, hp, markError]

/-- Collection environment where every marketplace page is ok and empty. -/
def emptyCollEnv : CollectionEnv where
  nftPages := fun _ => .ok [] none
  listingPages := fun _ => .ok [] none
  points := fun _ _ => .httpError 404
  upsertFails := fun _ => false

/-- Job environment for the C3 witness: both collections succeed trivially. -/
def c3env : JobEnv := ⟨fun _ => emptyCollEnv, 4, 5⟩

theorem refresh_job_status_witness :
    (leaderboardRefresh c3env ⟨[], ⟨"idle", none, none, none⟩⟩).1.meta.status =
      "idle" ∧
    (leaderboardRefresh c3env
        ⟨[], ⟨"idle", none, none, none⟩⟩).1.meta.last_completed_at = some 5 ∧
    (leaderboardRefresh c3env ⟨[], ⟨"idle", none, none, none⟩⟩).2 =
      ⟨200, successBody⟩ := by
  exact (refresh_job_status c3env ⟨[], ⟨"idle", none, none, none⟩⟩).2.1 []
    (by decide)

theorem processCollection_error_entries (env : CollectionEnv) (ty : NFTType)
    (slug : String) (es es2 : List Row) (msg : String)
    (h : processCollection env ty slug es = (es2, some msg)) : es2 = es := by
  unfold processCollection at h
  cases hn : fetchAllNFTs env.nftPages with
  | error m =>
    rw [hn] at h
    exact (congrArg Prod.fst h).symm
  | ok r =>
    obtain ⟨nfts, pages⟩ := r
    rw [hn] at h
    cases hl : fetchListedTokenIds env.listingPages with
    | error m =>
      rw [hl] at h
      exact (congrArg Prod.fst h).symm
    | ok r2 =>
      obtain ⟨listed, pages2⟩ := r2
      rw [hl] at h
      simp at h

/-- C6: when the first collection completes and the second throws, the
refresh handler ends with the entries table exactly as the first
collection's upserts left it (no rollback or deletion on the error path),
and the status row in state error with `last_error` populated. -/
theorem refresh_no_rollback (jenv : JobEnv) (db : DBState)
    (es1 es2 : List Row) (msg : String)
    (h1 : processCollection (jenv.collEnv .Mythic) .Mythic "mythicseed"
      db.entries = (es1, none))
    (h2 : processCollection (jenv.collEnv .Ancient) .Ancient "ancientseed"
      es1 = (es2, some msg)) :
    (leaderboardRefresh jenv db).1.entries = es1 ∧
    (leaderboardRefresh jenv db).1.meta.status = "error" ∧
    (leaderboardRefresh jenv db).1.meta.last_error = some msg := by
  have hes2 : es2 = es1 :=
    processCollection_error_entries _ _ _ _ _ _ h2
  subst hes2
  have hp : processCollections jenv [.Mythic, .Ancient] db.entries =
      (es2, some msg) := by
    show (match processCollection (jenv.collEnv .Mythic) .Mythic
        (COLLECTION_SLUGS .Mythic) db.entries with
      | (es, none) => processCollections jenv [.Ancient] es
      | (es, some m) => (es, some m)) = (es2, some msg)
    rw [show COLLECTION_SLUGS .Mythic = "mythicseed" from rfl, h1]
    show (match processCollection (jenv.collEnv .Ancient) .Ancient
        (COLLECTION_SLUGS .Ancient) es2 with
      | (es, none) => processCollections jenv [] es
      | (es, some m) => (es, some m)) = (es2, some msg)
    rw [show COLLECTION_SLUGS .Ancient = "ancientseed" from rfl, h2]
  simp [leaderboardRefresh, hp, markError]

/-- Collection environment for the C6 witness: the first NFT page request
rejects, so the collection throws before writing anything. -/
def throwingCollEnv : CollectionEnv where
  nftPages := fun _ => .thrown "boom"
  listingPages := fun _ => .ok [] none
  points := fun _ _ => .httpError 404
  upsertFails := fun _ => false

/-- Job environment for the C6 witness: Mythic succeeds with no rows,
Ancient throws. -/
def c6env : JobEnv :=
  ⟨fun ty => match ty with
    | .Mythic => emptyCollEnv
    | .Ancient => throwingCollEnv, 7, 8⟩

theorem refresh_no_rollback_witness :
    (leaderboardRefresh c6env ⟨[], ⟨"idle", none, none, none⟩⟩).1.entries =
      [] ∧
    (leaderboardRefresh c6env
        ⟨[], ⟨"idle", none, none, none⟩⟩).1.meta.status = "error" ∧
    (leaderboardRefresh c6env
        ⟨[], ⟨"idle", none, none, none⟩⟩).1.meta.last_error = some "boom" := by
  exact refresh_no_rollback c6env ⟨[], ⟨"idle", none, none, none⟩⟩ [] [] "boom"
    (by decide) (by decide)

/-- C8: the error-path status upsert writes only `status` and `last_error`,
so `last_completed_at` keeps the value it had when the job started (it only
ever reflects the latest successful completion); the success-path upsert
sets `last_error` back to null. -/
theorem refresh_meta_frame (jenv : JobEnv) (db : DBState) :
    (∀ es msg, processCollections jenv [.Mythic, .Ancient] db.entries =
        (es, some msg) →
      (leaderboardRefresh jenv db).1.meta.last_completed_at =
        db.meta.last_completed_at ∧
      (leaderboardRefresh jenv db).1.meta.last_started_at =
        some jenv.startedAt) ∧
    (∀ es, processCollections jenv [.Mythic, .Ancient] db.entries =
        (es, none) →
      (leaderboardRefresh jenv db).1.meta.last_error = none) := by
  cases hp : processCollections jenv [.Mythic, .Ancient] db.entries with
  | mk es2 out =>
    cases out with
    | none =>
      refine ⟨fun es msg hes => absurd hes (by simp), fun es hes => ?_⟩
      simp [leaderboardRefresh, hp, markIdle]
    | some msg2 =>
      refine ⟨fun es msg hes => ?_, fun es hes => absurd hes (by simp)⟩
      simp [leaderboardRefresh, hp, markError, markRunning]

theorem refresh_meta_frame_witness :
    (leaderboardRefresh c6env
        ⟨[], ⟨"idle", none, some 3, none⟩⟩).1.meta.last_completed_at =
      some 3 ∧
    (leaderboardRefresh c6env
        ⟨[], ⟨"idle", none, some 3, none⟩⟩).1.meta.last_started_at =
      some 7 := by
  exact (refresh_meta_frame c6env ⟨[], ⟨"idle", none, some 3, none⟩⟩).1 []
    "boom" (by decide)

/-- Mythic environment of the C2 scenario: one marketplace page with the
three tokens A, B, C; one listings page offering only B; staking points 5,
0 and 12 for A, B, C. -/
def c2mythicEnv : CollectionEnv where
  nftPages := fun p =>
    if p = 1 then
      .ok [⟨"A", some "imgA", some "osA"⟩, ⟨"B", some "imgB", some "osB"⟩,
        ⟨"C", some "imgC", some "osC"⟩] none
    else .httpError 500
  listingPages := fun p =>
    if p = 1 then .ok [⟨some "B"⟩] none else .httpError 500
  points := fun tid _ =>
    if tid = "A" then .ok (some 5) none none
    else if tid = "B" then .ok (some 0) none none
    else if tid = "C" then .ok (some 12) none none
    else .httpError 404
  upsertFails := fun _ => false

/-- Job environment of the C2 scenario: the Mythic collection as above, the
Ancient collection empty. -/
def c2env : JobEnv :=
  ⟨fun ty => match ty with
    | .Mythic => c2mythicEnv
    | .Ancient => emptyCollEnv, 1, 2⟩

/-- C2: on a collection of exactly three tokens A, B, C in one marketplace
page, with only B listed and staking points 5, 0 and 12, the refresh job
upserts exactly the rows A (points 5, not listed), B (points 0, listed) and
C (points 12, not listed), and completes successfully. -/
theorem refresh_concrete_rows :
    (leaderboardRefresh c2env ⟨[], ⟨"idle", none, none, none⟩⟩).1.entries =
      [⟨"mythicseed", .Mythic, "A", 5, some "imgA", some "osA", false⟩,
       ⟨"mythicseed", .Mythic, "B", 0, some "imgB", some "osB", true⟩,
       ⟨"mythicseed", .Mythic, "C", 12, some "imgC", some "osC", false⟩] ∧
    (leaderboardRefresh c2env ⟨[], ⟨"idle", none, none, none⟩⟩).2.status =
      200 := by
  decide

/-- Request body of the opensea-listings function after `req.json()`:
either the parse threw, or it yielded an object whose `collectionSlug`
field is the given optional string. -/
inductive ReqBody where
  | malformed (msg : String)
  | parsed (collectionSlug : Option String)
deriving DecidableEq, Repr

/-- Upstream response of the marketplace listings endpoint as seen by the
opensea-listings function: ok with an optional `listings` array, a non-ok
status together with the body text read for the error details, or a thrown
fetch error. -/
inductive ListingsResp where
  | ok (listings : Option (List OSListing))
  | httpError (status : Nat) (details : String)
  | thrown (msg : String)
deriving DecidableEq, Repr

/-- Response body of the opensea-listings function, by case. -/
inductive ListingsBody where
  | missingSlug
  | upstreamError (error : String) (details : String)
  | listings (ls : List OSListing)
  | caught (error : String)
deriving DecidableEq, Repr

/-- The `Deno.serve` handler of the opensea-listings function (non-OPTIONS
path): 400 when `collectionSlug` is falsy, the upstream status with an
`error`/`details` body when the upstream answers non-ok, the upstream
listings (defaulted to `[]`) with status 200 on success, and 500 from the
catch block when the body parse or the fetch throws. -/
def openseaListings (body : ReqBody) (oracle : String → ListingsResp) :
    Nat × ListingsBody :=
  match body with
  | .malformed msg => (500, .caught msg)
  | .parsed slug =>
    match slug with
    | none => (400, .missingSlug)
    | some s =>
      if s = "" then (400, .missingSlug)
      else
        match oracle s with
        | .ok ls => (200, .listings (ls.getD []))
        | .httpError st details =>
          (st, .upstreamError ("OpenSea API error: " ++ toString st) details)
        | .thrown msg => (500, .caught msg)

/-- C7: for every parsed request body, the opensea-listings handler answers
400 when the collection slug is missing (absent or empty, i.e. falsy); when
the slug is present it forwards it upstream and answers with the upstream
status and an error/details body on a non-ok upstream response, and with
status 200 and the upstream listings (an empty array when the upstream
omits them) on an ok upstream response. -/
theorem openseaListings_spec (body : ReqBody) (oracle : String → ListingsResp) :
    (∀ slug, body = .parsed slug → (slug = none ∨ slug = some "") →
      openseaListings body oracle = (400, .missingSlug)) ∧
    (∀ s st details, body = .parsed (some s) → s ≠ "" →
      oracle s = .httpError st details →
      openseaListings body oracle =
        (st, .upstreamError ("OpenSea API error: " ++ toString st) details)) ∧
    (∀ s ls, body = .parsed (some s) → s ≠ "" → oracle s = .ok ls →
      openseaListings body oracle = (200, .listings (ls.getD []))) := by
  refine ⟨fun slug hb hs => ?_, fun s st details hb hs ho => ?_,
    fun s ls hb hs ho => ?_⟩
  · subst hb
    rcases hs with hs | hs <;> subst hs <;> simp [openseaListings]
  · subst hb
    simp [openseaListings, hs, ho]
  · subst hb
    simp [openseaListings, hs, ho]

/-- Upstream oracle for the C7 witness: HTTP 400 with details for the
"mythicseed" slug, ok with two listings otherwise. -/
def c7oracle : String → ListingsResp := fun s =>
  if s = "mythicseed" then .httpError 400 "bad collection"
  else .ok (some [⟨some "3"⟩, ⟨none⟩])

theorem openseaListings_spec_witness :
    openseaListings (.parsed none) c7oracle = (400, .missingSlug) ∧
    openseaListings (.parsed (some "mythicseed")) c7oracle =
      (400, .upstreamError ("OpenSea API error: " ++ toString 400)
        "bad collection") ∧
    openseaListings (.parsed (some "ancientseed")) c7oracle =
      (200, .listings [⟨some "3"⟩, ⟨none⟩]) := by
  have h1 := openseaListings_spec (.parsed none) c7oracle
  have h2 := openseaListings_spec (.parsed (some "mythicseed")) c7oracle
  have h3 := openseaListings_spec (.parsed (some "ancientseed")) c7oracle
  refine ⟨h1.1 none rfl (Or.inl rfl), ?_, ?_⟩
  · exact h2.2.1 "mythicseed" 400 "bad collection" rfl (by decide) (by decide)
  · exact h3.2.2 "ancientseed" (some [⟨some "3"⟩, ⟨none⟩]) rfl (by decide)
      (by decide)

/-- One listing with metadata, as consumed by the sorting helpers: the
numeric value of `price.current.value` (absent when the optional chain is
missing or the value is falsy) and the attached `stakingPoints`.  Prices and
point ratios are modelled over the rationals. -/
structure NFTWithMetadata where
  priceValue : Option ℚ
  stakingPoints : Option ℚ
deriving DecidableEq

/-- The `getPriceValue` helper: 0 when no price value is present, the value
divided by 1e18 otherwise. -/
def getPriceValue (l : NFTWithMetadata) : ℚ :=
  match l.priceValue with
  | none => 0
  | some v => v / 1000000000000000000

/-- The `calculatePointsPerPrice` helper: 0 when price or points are 0 or
absent, the points-per-price ratio otherwise. -/
def calculatePointsPerPrice (l : NFTWithMetadata) : ℚ :=
  let points := l.stakingPoints.getD 0
  let price := getPriceValue l
  if price = 0 ∨ points = 0 then 0 else points / price

/-- The three accepted sort keys of `sortListings`. -/
inductive SortType where
  | lowestprice
  | highestprice
  | bestdeal
deriving DecidableEq, Repr

/-- The `sortListings` function: copy the input array (`[...listings]`) and
sort the copy with the comparator of the requested key — descending
points-per-price ratio, descending price, or ascending price.  The copy is
what the pure embedding reflects: the input list is an unchanged argument.
The engine's sort is modelled by merge sort; the claims proved about it do
not depend on the sorting algorithm. -/
def sortListings (listings : List NFTWithMetadata) (sortType : SortType) :
    List NFTWithMetadata :=
  match sortType with
  | .bestdeal =>
    listings.mergeSort (fun a b =>
      decide (calculatePointsPerPrice b ≤ calculatePointsPerPrice a))
  | .highestprice =>
    listings.mergeSort (fun a b => decide (getPriceValue b ≤ getPriceValue a))
  | .lowestprice =>
    listings.mergeSort (fun a b => decide (getPriceValue a ≤ getPriceValue b))

/-- C10: for every list of listings and every sort key, `sortListings`
returns a permutation of its input — the same listings with the same
multiplicities.  The function sorts a copy (`[...listings]`), so the input
itself is untouched, which the embedding as a pure function of an immutable
list reflects. -/
theorem sortListings_perm (listings : List NFTWithMetadata) (ty : SortType) :
    (sortListings listings ty).Perm listings := by
  cases ty <;> exact List.mergeSort_perm _ _
